import Mathlib

/-!
Shallow embedding of `msgraph/service.go` from the office-365-listener
repository: the delta-synchronization traversals
(`GetMailFolderMessagesDeltaLink` and `GetMessagesDelta`), attachment
retrieval (`GetAttachments`) and error flattening (`parseError`).

Modelling conventions:
- a Graph delta response is `DeltaResponse` (the Go getters `GetValue`,
  `GetOdataNextLink`, `GetOdataDeltaLink` become fields, with Go nil
  pointers as `Option`);
- the remote adapter is a function from a request link to an `Except`
  result, and the initial request of a traversal is passed as its
  already-resolved `Except` result;
- the unbounded Go `for` loops run on an explicit fuel parameter: the
  `fuelOut` outcome means the loop was still iterating when the fuel
  ran out, and the `crash` outcome models a nil-pointer dereference;
- Go multi-value returns become tuples inside `GoResult.ret`, with a Go
  `error` result flattened to the `Option String` message produced by
  `parseError` (mirroring `errors.New` of a message string).
-/

namespace O365

/-- Outcome of running a Go function: a normal return of a value, a
runtime crash (nil-pointer dereference), or fuel exhaustion of the
model while the source loop would still be iterating. -/
inductive GoResult (β : Type) where
  | ret : β → GoResult β
  | crash : GoResult β
  | fuelOut : GoResult β
deriving DecidableEq

/-- Model of the `GetError()` payload of an OData error: `GetMessage()`
returns a possibly-nil string pointer. -/
structure ODataMainError where
  message : Option String
deriving DecidableEq

/-- Flattened model of a Go `error` value as consumed by `parseError`:
`odataPayload = some inner` means `errors.As(err, &ode)` succeeds and
`ode.GetError()` returns `inner` (a nil main error is `none`);
`odataPayload = none` means the error is not an OData error. `text` is
`err.Error()`. -/
structure GoErr where
  odataPayload : Option (Option ODataMainError)
  text : String
deriving DecidableEq

/-- Embedding of `parseError` (service.go:208-223): nil maps to nil; an
OData error with a non-nil main error carrying a non-nil message yields
that message; every other error yields `err.Error()`. -/
def parseError : Option GoErr → Option String
  | none => none
  | some e =>
    match e.odataPayload with
    | some (some mainErr) =>
      match mainErr.message with
      | some m => some m
      | none => some e.text
    | some none => some e.text
    | none => some e.text

/-- Embedding of the delta response objects returned by the Graph SDK:
an item list plus possibly-nil next-page and delta links. -/
structure DeltaResponse (α : Type) where
  value : List α
  odataNextLink : Option String
  odataDeltaLink : Option String
deriving DecidableEq

/-- Loop of `GetMessagesDelta` (service.go:116-122): while the current
response has no delta link, dereference its next link (crash when nil),
fetch it (returning `nil, "", parseError(err)` on failure) and append
the fetched items; on a delta link, return the accumulated items, the
dereferenced delta link and a nil error (service.go:124-126). -/
def getMessagesDeltaLoop (fetch : String → Except GoErr (DeltaResponse α))
    (fuel : Nat) (acc : List α) (resp : DeltaResponse α) :
    GoResult (List α × String × Option String) :=
  match resp.odataDeltaLink with
  | some dl => GoResult.ret (acc, dl, none)
  | none =>
    match fuel with
    | 0 => GoResult.fuelOut
    | f + 1 =>
      match resp.odataNextLink with
      | none => GoResult.crash
      | some nl =>
        match fetch nl with
        | Except.error e => GoResult.ret ([], "", parseError (some e))
        | Except.ok r2 => getMessagesDeltaLoop fetch f (acc ++ r2.value) r2

/-- Embedding of `GetMessagesDelta` (service.go:108-127): fetch the
delta link; on failure return `nil, "", parseError(err)`; otherwise
seed the accumulator with the first page's items and run the loop. -/
def GetMessagesDelta (fetch : String → Except GoErr (DeltaResponse α))
    (fuel : Nat) (deltaLink : String) : GoResult (List α × String × Option String) :=
  match fetch deltaLink with
  | Except.error e => GoResult.ret ([], "", parseError (some e))
  | Except.ok resp => getMessagesDeltaLoop fetch fuel resp.value resp

/-- Loop of `GetMailFolderMessagesDeltaLink` (service.go:93-98): while
the current response has a next link, fetch it, returning
`nil, parseError(err)` on failure; when no next link remains, return
`result.GetOdataDeltaLink()` (possibly nil) with a nil error
(service.go:100). -/
def getMailFolderMessagesDeltaLinkLoop (fetch : String → Except GoErr (DeltaResponse α))
    (fuel : Nat) (resp : DeltaResponse α) : GoResult (Option String × Option String) :=
  match resp.odataNextLink with
  | none => GoResult.ret (resp.odataDeltaLink, none)
  | some nl =>
    match fuel with
    | 0 => GoResult.fuelOut
    | f + 1 =>
      match fetch nl with
      | Except.error e => GoResult.ret (none, parseError (some e))
      | Except.ok r2 => getMailFolderMessagesDeltaLinkLoop fetch f r2

/-- Embedding of `GetMailFolderMessagesDeltaLink` (service.go:73-101):
`first` is the result of the initial delta request (service.go:74-89,
any failure there returns `nil, parseError(err)`); then the next-link
loop runs and the final delta link is returned. -/
def GetMailFolderMessagesDeltaLink (fetch : String → Except GoErr (DeltaResponse α))
    (fuel : Nat) (first : Except GoErr (DeltaResponse α)) :
    GoResult (Option String × Option String) :=
  match first with
  | Except.error e => GoResult.ret (none, parseError (some e))
  | Except.ok resp => getMailFolderMessagesDeltaLinkLoop fetch fuel resp

/-- A server chain: starting from response `r`, following next links
through `fetch` serves exactly the pages in the list (each carrying
exactly one of the two token kinds: intermediate pages a next link,
the final page the delta token `dl`). -/
inductive ServesChain (fetch : String → Except GoErr (DeltaResponse α)) :
    DeltaResponse α → List (DeltaResponse α) → String → Prop
  | last (r : DeltaResponse α) (dl : String)
      (hDelta : r.odataDeltaLink = some dl) (hNext : r.odataNextLink = none) :
      ServesChain fetch r [r] dl
  | step (r r2 : DeltaResponse α) (nl : String) (rest : List (DeltaResponse α)) (dl : String)
      (hDelta : r.odataDeltaLink = none) (hNext : r.odataNextLink = some nl)
      (hFetch : fetch nl = Except.ok r2) (hRest : ServesChain fetch r2 rest dl) :
      ServesChain fetch r (r :: rest) dl

theorem ServesChain.head_cons {fetch : String → Except GoErr (DeltaResponse α)}
    {r : DeltaResponse α} {pages : List (DeltaResponse α)} {dl : String}
    (h : ServesChain fetch r pages dl) : pages = r :: pages.tail := by
  cases h <;> rfl

/-- Sample server used by witnesses: link `"start"` yields a page with
items `[1, 2]` and next link `"p2"`; link `"p2"` yields a page with
item `[3]` and delta link `"d2"`; anything else fails. -/
def demoFetch : String → Except GoErr (DeltaResponse Nat)
  | "start" => Except.ok ⟨[1, 2], some "p2", none⟩
  | "p2" => Except.ok ⟨[3], none, some "d2"⟩
  | _ => Except.error ⟨none, "not found"⟩

example : demoFetch "p2" = Except.ok ⟨[3], none, some "d2"⟩ := rfl

example : GetMessagesDelta demoFetch 5 "start" = GoResult.ret ([1, 2, 3], "d2", none) := rfl

example : GetMailFolderMessagesDeltaLink demoFetch 5 (demoFetch "start") =
    GoResult.ret (some "d2", none) := rfl

theorem getMessagesDeltaLoop_delta {α : Type} (fetch : String → Except GoErr (DeltaResponse α))
    (fuel : Nat) (acc : List α) (r : DeltaResponse α) (dl : String)
    (h : r.odataDeltaLink = some dl) :
    getMessagesDeltaLoop fetch fuel acc r = GoResult.ret (acc, dl, none) := by
  cases fuel <;> simp [getMessagesDeltaLoop, h]

theorem getMessagesDeltaLoop_zero {α : Type} (fetch : String → Except GoErr (DeltaResponse α))
    (acc : List α) (r : DeltaResponse α) (h : r.odataDeltaLink = none) :
    getMessagesDeltaLoop fetch 0 acc r = GoResult.fuelOut := by
  simp [getMessagesDeltaLoop, h]

theorem getMessagesDeltaLoop_crash {α : Type} (fetch : String → Except GoErr (DeltaResponse α))
    (f : Nat) (acc : List α) (r : DeltaResponse α)
    (hd : r.odataDeltaLink = none) (hn : r.odataNextLink = none) :
    getMessagesDeltaLoop fetch (f + 1) acc r = GoResult.crash := by
  simp [getMessagesDeltaLoop, hd, hn]

theorem getMessagesDeltaLoop_err_step {α : Type} (fetch : String → Except GoErr (DeltaResponse α))
    (f : Nat) (acc : List α) (r : DeltaResponse α) (nl : String) (e : GoErr)
    (hd : r.odataDeltaLink = none) (hn : r.odataNextLink = some nl)
    (hf : fetch nl = Except.error e) :
    getMessagesDeltaLoop fetch (f + 1) acc r =
      GoResult.ret ([], "", parseError (some e)) := by
  simp only [getMessagesDeltaLoop, hd, hn, hf]

theorem getMessagesDeltaLoop_ok_step {α : Type} (fetch : String → Except GoErr (DeltaResponse α))
    (f : Nat) (acc : List α) (r r2 : DeltaResponse α) (nl : String)
    (hd : r.odataDeltaLink = none) (hn : r.odataNextLink = some nl)
    (hf : fetch nl = Except.ok r2) :
    getMessagesDeltaLoop fetch (f + 1) acc r =
      getMessagesDeltaLoop fetch f (acc ++ r2.value) r2 := by
  simp only [getMessagesDeltaLoop, hd, hn, hf]

theorem getMailFolderMessagesDeltaLinkLoop_done {α : Type}
    (fetch : String → Except GoErr (DeltaResponse α)) (fuel : Nat) (r : DeltaResponse α)
    (hn : r.odataNextLink = none) :
    getMailFolderMessagesDeltaLinkLoop fetch fuel r =
      GoResult.ret (r.odataDeltaLink, none) := by
  cases fuel <;> simp [getMailFolderMessagesDeltaLinkLoop, hn]

theorem getMailFolderMessagesDeltaLinkLoop_zero {α : Type}
    (fetch : String → Except GoErr (DeltaResponse α)) (r : DeltaResponse α) (nl : String)
    (hn : r.odataNextLink = some nl) :
    getMailFolderMessagesDeltaLinkLoop fetch 0 r = GoResult.fuelOut := by
  simp [getMailFolderMessagesDeltaLinkLoop, hn]

theorem getMailFolderMessagesDeltaLinkLoop_err_step {α : Type}
    (fetch : String → Except GoErr (DeltaResponse α)) (f : Nat) (r : DeltaResponse α)
    (nl : String) (e : GoErr) (hn : r.odataNextLink = some nl)
    (hf : fetch nl = Except.error e) :
    getMailFolderMessagesDeltaLinkLoop fetch (f + 1) r =
      GoResult.ret (none, parseError (some e)) := by
  simp only [getMailFolderMessagesDeltaLinkLoop, hn, hf]

theorem getMailFolderMessagesDeltaLinkLoop_ok_step {α : Type}
    (fetch : String → Except GoErr (DeltaResponse α)) (f : Nat) (r r2 : DeltaResponse α)
    (nl : String) (hn : r.odataNextLink = some nl) (hf : fetch nl = Except.ok r2) :
    getMailFolderMessagesDeltaLinkLoop fetch (f + 1) r =
      getMailFolderMessagesDeltaLinkLoop fetch f r2 := by
  conv_lhs => rw [getMailFolderMessagesDeltaLinkLoop, hn]
  simp only [hf]

theorem getMessagesDeltaLoop_chain {α : Type} (fetch : String → Except GoErr (DeltaResponse α))
    {r : DeltaResponse α} {pages : List (DeltaResponse α)} {dl : String}
    (h : ServesChain fetch r pages dl) :
    ∀ (fuel : Nat) (acc : List α), pages.tail.length ≤ fuel →
      getMessagesDeltaLoop fetch fuel acc r =
        GoResult.ret (acc ++ (pages.tail.map DeltaResponse.value).flatten, dl, none) := by
  induction h with
  | last r dl hDelta hNext =>
      intro fuel acc _
      rw [getMessagesDeltaLoop_delta fetch fuel acc r dl hDelta]
      simp
  | step r r2 nl rest dl hDelta hNext hFetch hRest ih =>
      intro fuel acc hfuel
      have hrest := hRest.head_cons
      simp only [List.tail_cons] at hfuel ⊢
      cases fuel with
      | zero =>
          rw [hrest] at hfuel
          simp at hfuel
      | succ f =>
          rw [getMessagesDeltaLoop_ok_step fetch f acc r r2 nl hDelta hNext hFetch]
          rw [ih f (acc ++ r2.value)
            (by rw [hrest] at hfuel; simp only [List.length_cons] at hfuel; omega)]
          rw [hrest]
          simp [List.append_assoc]

theorem getMailFolderMessagesDeltaLinkLoop_chain {α : Type}
    (fetch : String → Except GoErr (DeltaResponse α))
    {r : DeltaResponse α} {pages : List (DeltaResponse α)} {dl : String}
    (h : ServesChain fetch r pages dl) :
    ∀ fuel : Nat, pages.tail.length ≤ fuel →
      getMailFolderMessagesDeltaLinkLoop fetch fuel r = GoResult.ret (some dl, none) := by
  induction h with
  | last r dl hDelta hNext =>
      intro fuel _
      rw [getMailFolderMessagesDeltaLinkLoop_done fetch fuel r hNext, hDelta]
  | step r r2 nl rest dl hDelta hNext hFetch hRest ih =>
      intro fuel hfuel
      have hrest := hRest.head_cons
      simp only [List.tail_cons] at hfuel
      cases fuel with
      | zero =>
          rw [hrest] at hfuel
          simp at hfuel
      | succ f =>
          rw [getMailFolderMessagesDeltaLinkLoop_ok_step fetch f r r2 nl hNext hFetch]
          exact ih f (by rw [hrest] at hfuel; simp only [List.length_cons] at hfuel; omega)

/-- Claim C1: for every `GetMessagesDelta` traversal over a finite chain
of pages each carrying exactly one of the two token kinds, the returned
item sequence is the concatenation of the pages' item lists in server
order and the returned cursor is the final page's delta token. -/
theorem c1_fetchChanges_accumulation_order {α : Type}
    (fetch : String → Except GoErr (DeltaResponse α)) (d : String)
    (P1 : DeltaResponse α) (pages : List (DeltaResponse α)) (dl : String) (fuel : Nat)
    (hFirst : fetch d = Except.ok P1) (hChain : ServesChain fetch P1 pages dl)
    (hFuel : pages.tail.length ≤ fuel) :
    GetMessagesDelta fetch fuel d =
      GoResult.ret ((pages.map DeltaResponse.value).flatten, dl, none) := by
  have hp := hChain.head_cons
  simp only [GetMessagesDelta, hFirst]
  rw [getMessagesDeltaLoop_chain fetch hChain fuel P1.value hFuel]
  conv_rhs => rw [hp]
  simp

def page1 : DeltaResponse Nat := ⟨[1, 2], some "p2", none⟩

def page2 : DeltaResponse Nat := ⟨[3], none, some "d2"⟩

theorem demoChain : ServesChain demoFetch page1 [page1, page2] "d2" :=
  ServesChain.step page1 page2 "p2" [page2] "d2" rfl rfl rfl
    (ServesChain.last page2 "d2" rfl rfl)

theorem c1_witness :
    GetMessagesDelta demoFetch 5 "start" = GoResult.ret ([1, 2, 3], "d2", none) := by
  have h := c1_fetchChanges_accumulation_order demoFetch "start" page1 [page1, page2] "d2" 5
    rfl demoChain (by decide)
  simpa [page1, page2] using h

/-- Claim C3: for every baseline traversal over a finite chain of pages
each carrying exactly one token kind, `GetMailFolderMessagesDeltaLink`
returns exactly the final page's delta token with a nil error; its
result type carries no item payload at all, whatever the pages hold. -/
theorem c3_baseline_returns_final_delta {α : Type}
    (fetch : String → Except GoErr (DeltaResponse α))
    (P1 : DeltaResponse α) (pages : List (DeltaResponse α)) (dl : String) (fuel : Nat)
    (hChain : ServesChain fetch P1 pages dl) (hFuel : pages.tail.length ≤ fuel) :
    GetMailFolderMessagesDeltaLink fetch fuel (Except.ok P1) = GoResult.ret (some dl, none) := by
  simp only [GetMailFolderMessagesDeltaLink]
  exact getMailFolderMessagesDeltaLinkLoop_chain fetch hChain fuel hFuel

theorem c3_witness :
    GetMailFolderMessagesDeltaLink demoFetch 5 (Except.ok page1) =
      GoResult.ret (some "d2", none) :=
  c3_baseline_returns_final_delta demoFetch page1 [page1, page2] "d2" 5 demoChain (by decide)

/-- Page carrying neither a next-page token nor a delta token. -/
def noTokenPage : DeltaResponse Nat := ⟨[], none, none⟩

/-- Server that always serves `noTokenPage`. -/
def noTokenFetch : String → Except GoErr (DeltaResponse Nat) :=
  fun _ => Except.ok noTokenPage

/-- Claim C2 concerns a page carrying neither token kind: the code does
NOT fail with an error there. `GetMessagesDelta` dereferences the nil
next link and crashes, and `GetMailFolderMessagesDeltaLink` exits its
loop and returns the missing (nil) delta link as a success. -/
theorem c2_neither_token_code_behavior :
    GetMessagesDelta noTokenFetch 5 "start" = GoResult.crash ∧
    GetMailFolderMessagesDeltaLink noTokenFetch 5 (Except.ok noTokenPage) =
      GoResult.ret (none, none) :=
  ⟨rfl, rfl⟩

/-- Server whose every page is empty and final with delta token `"d9"`. -/
def emptyRoundFetch : String → Except GoErr (DeltaResponse Nat) :=
  fun _ => Except.ok ⟨[], none, some "d9"⟩

/-- Claim C6: a first page with zero items and a delta token makes
`GetMessagesDelta` succeed with an empty item list and that delta token
as the new cursor. -/
theorem c6_empty_round {α : Type} (fetch : String → Except GoErr (DeltaResponse α))
    (d dl : String) (r : DeltaResponse α) (fuel : Nat)
    (hFirst : fetch d = Except.ok r) (hEmpty : r.value = [])
    (hDelta : r.odataDeltaLink = some dl) :
    GetMessagesDelta fetch fuel d = GoResult.ret ([], dl, none) := by
  simp only [GetMessagesDelta, hFirst]
  rw [getMessagesDeltaLoop_delta fetch fuel r.value r dl hDelta, hEmpty]

theorem c6_witness :
    GetMessagesDelta emptyRoundFetch 0 "c" = GoResult.ret ([], "d9", none) :=
  c6_empty_round emptyRoundFetch "c" "d9" ⟨[], none, some "d9"⟩ 0 rfl rfl rfl

theorem parseError_some_isSome (e : GoErr) : (parseError (some e)).isSome = true := by
  rcases e with ⟨p, t⟩
  rcases p with _ | (_ | ⟨_ | s⟩) <;> rfl

/-- A failing continuation of the `GetMessagesDelta` loop: from response
`r` (whose delta link is still absent), `n` further pages are served
successfully and then a page request fails with `e`. -/
inductive DeltaChainFails (fetch : String → Except GoErr (DeltaResponse α)) :
    DeltaResponse α → Nat → GoErr → Prop
  | here (r : DeltaResponse α) (nl : String) (e : GoErr)
      (hDelta : r.odataDeltaLink = none) (hNext : r.odataNextLink = some nl)
      (hFetch : fetch nl = Except.error e) : DeltaChainFails fetch r 0 e
  | step (r r2 : DeltaResponse α) (nl : String) (n : Nat) (e : GoErr)
      (hDelta : r.odataDeltaLink = none) (hNext : r.odataNextLink = some nl)
      (hFetch : fetch nl = Except.ok r2) (hRest : DeltaChainFails fetch r2 n e) :
      DeltaChainFails fetch r (n + 1) e

theorem getMessagesDeltaLoop_fails {α : Type} (fetch : String → Except GoErr (DeltaResponse α))
    {r : DeltaResponse α} {n : Nat} {e : GoErr} (h : DeltaChainFails fetch r n e) :
    ∀ (fuel : Nat) (acc : List α), n < fuel →
      getMessagesDeltaLoop fetch fuel acc r = GoResult.ret ([], "", parseError (some e)) := by
  induction h with
  | here r nl e hDelta hNext hFetch =>
      intro fuel acc hfuel
      cases fuel with
      | zero => exact absurd hfuel (by omega)
      | succ f => exact getMessagesDeltaLoop_err_step fetch f acc r nl e hDelta hNext hFetch
  | step r r2 nl n e hDelta hNext hFetch hRest ih =>
      intro fuel acc hfuel
      cases fuel with
      | zero => exact absurd hfuel (by omega)
      | succ f =>
          rw [getMessagesDeltaLoop_ok_step fetch f acc r r2 nl hDelta hNext hFetch]
          exact ih f (acc ++ r2.value) (by omega)

/-- Claim C4: when a later page request of a `GetMessagesDelta` round
fails (the first page having succeeded), the call returns the nil item
list and empty cursor together with the flattened error — earlier
pages' items are discarded, so the round is all-or-nothing. -/
theorem c4_round_atomicity {α : Type} (fetch : String → Except GoErr (DeltaResponse α))
    (d : String) (P1 : DeltaResponse α) (n : Nat) (e : GoErr) (fuel : Nat)
    (hFirst : fetch d = Except.ok P1) (hFail : DeltaChainFails fetch P1 n e)
    (hFuel : n < fuel) :
    GetMessagesDelta fetch fuel d = GoResult.ret ([], "", parseError (some e)) ∧
      (parseError (some e)).isSome = true := by
  constructor
  · simp only [GetMessagesDelta, hFirst]
    exact getMessagesDeltaLoop_fails fetch hFail fuel P1.value hFuel
  · exact parseError_some_isSome e

/-- Server used by the failure witnesses: the first page carries items
and next link `"boom"`, and every other link fails with an OData error
whose message is `"kaput"`. -/
def failFetch : String → Except GoErr (DeltaResponse Nat)
  | "start" => Except.ok ⟨[1, 2], some "boom", none⟩
  | _ => Except.error ⟨some (some ⟨some "kaput"⟩), "raw"⟩

theorem c4_witness :
    GetMessagesDelta failFetch 5 "start" = GoResult.ret ([], "", some "kaput") := by
  have h := c4_round_atomicity failFetch "start" ⟨[1, 2], some "boom", none⟩ 0
    ⟨some (some ⟨some "kaput"⟩), "raw"⟩ 5 rfl
    (DeltaChainFails.here ⟨[1, 2], some "boom", none⟩ "boom" ⟨some (some ⟨some "kaput"⟩), "raw"⟩
      rfl rfl rfl)
    (by omega)
  simpa using h.1

/-- A failing continuation of the `GetMailFolderMessagesDeltaLink`
loop: from response `r`, `n` further next links are followed
successfully and then a page request fails with `e`. -/
inductive BaselineChainFails (fetch : String → Except GoErr (DeltaResponse α)) :
    DeltaResponse α → Nat → GoErr → Prop
  | here (r : DeltaResponse α) (nl : String) (e : GoErr)
      (hNext : r.odataNextLink = some nl) (hFetch : fetch nl = Except.error e) :
      BaselineChainFails fetch r 0 e
  | step (r r2 : DeltaResponse α) (nl : String) (n : Nat) (e : GoErr)
      (hNext : r.odataNextLink = some nl) (hFetch : fetch nl = Except.ok r2)
      (hRest : BaselineChainFails fetch r2 n e) : BaselineChainFails fetch r (n + 1) e

theorem getMailFolderMessagesDeltaLinkLoop_fails {α : Type}
    (fetch : String → Except GoErr (DeltaResponse α))
    {r : DeltaResponse α} {n : Nat} {e : GoErr} (h : BaselineChainFails fetch r n e) :
    ∀ fuel : Nat, n < fuel →
      getMailFolderMessagesDeltaLinkLoop fetch fuel r =
        GoResult.ret (none, parseError (some e)) := by
  induction h with
  | here r nl e hNext hFetch =>
      intro fuel hfuel
      cases fuel with
      | zero => exact absurd hfuel (by omega)
      | succ f => exact getMailFolderMessagesDeltaLinkLoop_err_step fetch f r nl e hNext hFetch
  | step r r2 nl n e hNext hFetch hRest ih =>
      intro fuel hfuel
      cases fuel with
      | zero => exact absurd hfuel (by omega)
      | succ f =>
          rw [getMailFolderMessagesDeltaLinkLoop_ok_step fetch f r r2 nl hNext hFetch]
          exact ih f (by omega)

/-- Claim C7: when any page request of a baseline traversal fails —
the initial request or any follow-up — the whole operation returns the
flattened failure and a nil cursor, never a partial one. -/
theorem c7_baseline_failure_aborts {α : Type}
    (fetch : String → Except GoErr (DeltaResponse α)) (eFirst : GoErr)
    (r : DeltaResponse α) (n : Nat) (e : GoErr) (fuel : Nat)
    (hFail : BaselineChainFails fetch r n e) (hFuel : n < fuel) :
    GetMailFolderMessagesDeltaLink fetch fuel (Except.error eFirst) =
      GoResult.ret (none, parseError (some eFirst)) ∧
    GetMailFolderMessagesDeltaLink fetch fuel (Except.ok r) =
      GoResult.ret (none, parseError (some e)) ∧
    (parseError (some eFirst)).isSome = true ∧ (parseError (some e)).isSome = true := by
  refine ⟨rfl, ?_, parseError_some_isSome eFirst, parseError_some_isSome e⟩
  simp only [GetMailFolderMessagesDeltaLink]
  exact getMailFolderMessagesDeltaLinkLoop_fails fetch hFail fuel hFuel

theorem c7_witness :
    GetMailFolderMessagesDeltaLink failFetch 5 (Except.error ⟨none, "conn reset"⟩) =
      GoResult.ret (none, some "conn reset") ∧
    GetMailFolderMessagesDeltaLink failFetch 5 (Except.ok ⟨[1, 2], some "boom", none⟩) =
      GoResult.ret (none, some "kaput") := by
  have h := c7_baseline_failure_aborts failFetch ⟨none, "conn reset"⟩
    ⟨[1, 2], some "boom", none⟩ 0 ⟨some (some ⟨some "kaput"⟩), "raw"⟩ 5
    (BaselineChainFails.here ⟨[1, 2], some "boom", none⟩ "boom"
      ⟨some (some ⟨some "kaput"⟩), "raw"⟩ rfl rfl)
    (by omega)
  exact ⟨h.1, h.2.1⟩

/-- A server on which no traversal ever observes a delta token: every
request succeeds with a page that carries a next link and no delta
link. -/
def AlwaysContinues {α : Type} (fetch : String → Except GoErr (DeltaResponse α)) : Prop :=
  ∀ l : String, ∃ r : DeltaResponse α, fetch l = Except.ok r ∧
    r.odataDeltaLink = none ∧ r.odataNextLink.isSome = true

theorem getMessagesDeltaLoop_alwaysContinues {α : Type}
    (fetch : String → Except GoErr (DeltaResponse α)) (h : AlwaysContinues fetch) :
    ∀ (fuel : Nat) (acc : List α) (r : DeltaResponse α),
      r.odataDeltaLink = none → r.odataNextLink.isSome = true →
      getMessagesDeltaLoop fetch fuel acc r = GoResult.fuelOut := by
  intro fuel
  induction fuel with
  | zero =>
      intro acc r hd _
      exact getMessagesDeltaLoop_zero fetch acc r hd
  | succ f ih =>
      intro acc r hd hn
      obtain ⟨nl, hnl⟩ := Option.isSome_iff_exists.mp hn
      obtain ⟨r2, hf, hd2, hn2⟩ := h nl
      rw [getMessagesDeltaLoop_ok_step fetch f acc r r2 nl hd hnl hf]
      exact ih (acc ++ r2.value) r2 hd2 hn2

theorem getMailFolderMessagesDeltaLinkLoop_alwaysContinues {α : Type}
    (fetch : String → Except GoErr (DeltaResponse α)) (h : AlwaysContinues fetch) :
    ∀ (fuel : Nat) (r : DeltaResponse α), r.odataNextLink.isSome = true →
      getMailFolderMessagesDeltaLinkLoop fetch fuel r = GoResult.fuelOut := by
  intro fuel
  induction fuel with
  | zero =>
      intro r hn
      obtain ⟨nl, hnl⟩ := Option.isSome_iff_exists.mp hn
      exact getMailFolderMessagesDeltaLinkLoop_zero fetch r nl hnl
  | succ f ih =>
      intro r hn
      obtain ⟨nl, hnl⟩ := Option.isSome_iff_exists.mp hn
      obtain ⟨r2, hf, _, hn2⟩ := h nl
      rw [getMailFolderMessagesDeltaLinkLoop_ok_step fetch f r r2 nl hnl hf]
      exact ih r2 hn2

/-- Claim C5: over a finite page chain whose pages each carry exactly
one token kind, both traversal loops terminate normally (no fuel
exhaustion), stopping at the delta-token page and returning its token;
and conversely, on a server that never serves a delta token, both loops
run out of any amount of fuel, i.e. they terminate exactly when a delta
token is observed. -/
theorem c5_termination {α : Type}
    (fetchA : String → Except GoErr (DeltaResponse α)) (rA : DeltaResponse α)
    (pagesA : List (DeltaResponse α)) (dlA : String) (fuelA : Nat)
    (hChainA : ServesChain fetchA rA pagesA dlA) (hFuelA : pagesA.tail.length ≤ fuelA)
    (fetchB : String → Except GoErr (DeltaResponse α)) (dB : String) (PB : DeltaResponse α)
    (pagesB : List (DeltaResponse α)) (dlB : String) (fuelB : Nat)
    (hFirstB : fetchB dB = Except.ok PB) (hChainB : ServesChain fetchB PB pagesB dlB)
    (hFuelB : pagesB.tail.length ≤ fuelB)
    (fetchC : String → Except GoErr (DeltaResponse α)) (dC : String)
    (hC : AlwaysContinues fetchC) :
    GetMailFolderMessagesDeltaLink fetchA fuelA (Except.ok rA) =
      GoResult.ret (some dlA, none) ∧
    GetMessagesDelta fetchB fuelB dB =
      GoResult.ret ((pagesB.map DeltaResponse.value).flatten, dlB, none) ∧
    (∀ fuel : Nat, GetMessagesDelta fetchC fuel dC = GoResult.fuelOut) ∧
    (∀ fuel : Nat,
      GetMailFolderMessagesDeltaLink fetchC fuel (fetchC dC) = GoResult.fuelOut) := by
  obtain ⟨rC, hfC, hdC, hnC⟩ := hC dC
  refine ⟨?_, ?_, ?_, ?_⟩
  · simp only [GetMailFolderMessagesDeltaLink]
    exact getMailFolderMessagesDeltaLinkLoop_chain fetchA hChainA fuelA hFuelA
  · have hp := hChainB.head_cons
    simp only [GetMessagesDelta, hFirstB]
    rw [getMessagesDeltaLoop_chain fetchB hChainB fuelB PB.value hFuelB]
    conv_rhs => rw [hp]
    simp
  · intro fuel
    simp only [GetMessagesDelta, hfC]
    exact getMessagesDeltaLoop_alwaysContinues fetchC hC fuel rC.value rC hdC hnC
  · intro fuel
    simp only [GetMailFolderMessagesDeltaLink, hfC]
    exact getMailFolderMessagesDeltaLinkLoop_alwaysContinues fetchC hC fuel rC hnC

/-- Server that serves an endless chain of empty pages, each with a
next link and no delta link. -/
def endlessFetch : String → Except GoErr (DeltaResponse Nat) :=
  fun _ => Except.ok ⟨[], some "next", none⟩

theorem c5_witness :
    GetMailFolderMessagesDeltaLink demoFetch 5 (Except.ok page1) =
      GoResult.ret (some "d2", none) ∧
    GetMessagesDelta demoFetch 5 "start" = GoResult.ret ([1, 2, 3], "d2", none) ∧
    (∀ fuel : Nat, GetMessagesDelta endlessFetch fuel "c" = GoResult.fuelOut) ∧
    (∀ fuel : Nat,
      GetMailFolderMessagesDeltaLink endlessFetch fuel (endlessFetch "c") =
        GoResult.fuelOut) := by
  have h := c5_termination demoFetch page1 [page1, page2] "d2" 5 demoChain (by decide)
    demoFetch "start" page1 [page1, page2] "d2" 5 rfl demoChain (by decide)
    endlessFetch "c" (fun l => ⟨⟨[], some "next", none⟩, rfl, rfl, rfl⟩)
  refine ⟨h.1, ?_, h.2.2.1, h.2.2.2⟩
  have h2 := h.2.1
  simpa [page1, page2] using h2

/-- Projection extracting the structured OData message of an error, if
present, as C8 speaks of it. -/
def odataMessage (e : GoErr) : Option String :=
  match e.odataPayload with
  | some (some mainErr) => mainErr.message
  | _ => none

/-- Claim C8: `parseError` maps nil to nil, and flattens every non-nil
error to a single text message: the structured OData message when the
payload carries one, otherwise the raw error text. -/
theorem c8_parseError_flattening :
    parseError none = none ∧
    ∀ e : GoErr, parseError (some e) = some ((odataMessage e).getD e.text) := by
  refine ⟨rfl, ?_⟩
  intro e
  rcases e with ⟨p, t⟩
  rcases p with _ | (_ | ⟨_ | s⟩) <;> rfl

/-- Model of the attachments returned by the Graph SDK: the runtime
type test `att.(models.FileAttachmentable)` becomes a tagged variant;
a file attachment carries the possibly-nil results of `GetName()`,
`GetContentType()` and `GetContentBytes()` (bytes as `List Nat`). -/
inductive Attachment where
  | file (name : Option String) (contentType : Option String) (contentBytes : Option (List Nat))
  | other
deriving DecidableEq

/-- Embedding of the `FileAttachment` struct (service.go:226-230); the
Go `[]byte` field is `Option (List Nat)` with `none` for nil. -/
structure FileAttachment where
  Name : String
  ContentType : String
  Content : Option (List Nat)
deriving DecidableEq

/-- Loop body of `GetAttachments` (service.go:141-153): keep file
attachments, dereferencing `GetName()` and `GetContentType()` (`none`
models the nil-dereference crash), copy the content bytes only when
`withContent`, and skip every other attachment kind. -/
def buildAttachments (withContent : Bool) : List Attachment → Option (List FileAttachment)
  | [] => some []
  | Attachment.file name ct cb :: rest =>
    match name, ct with
    | some n, some c =>
      (buildAttachments withContent rest).map
        (fun tl => { Name := n, ContentType := c,
                     Content := if withContent then cb else none } :: tl)
    | _, _ => none
  | Attachment.other :: rest => buildAttachments withContent rest

/-- Embedding of `GetAttachments` (service.go:134-156): `resp` is the
result of the attachments request (failure returns
`nil, parseError(err)`); on success the returned list is built by the
filtering loop, a nil dereference in it being a crash. -/
def GetAttachments (resp : Except GoErr (List Attachment)) (withContent : Bool) :
    GoResult (List FileAttachment × Option String) :=
  match resp with
  | Except.error e => GoResult.ret ([], parseError (some e))
  | Except.ok atts =>
    match buildAttachments withContent atts with
    | none => GoResult.crash
    | some l => GoResult.ret (l, none)

/-- The file-attachment projection C9 speaks of: a file attachment with
both metadata fields present maps to the `FileAttachment` the loop
builds; anything else is skipped. -/
def toFileAttachment (withContent : Bool) : Attachment → Option FileAttachment
  | Attachment.file (some n) (some c) cb =>
    some { Name := n, ContentType := c, Content := if withContent then cb else none }
  | _ => none

/-- An attachment the real API can serve: file attachments carry a name
and a content type. -/
def wellFormedAttachment : Attachment → Bool
  | Attachment.file name ct _ => name.isSome && ct.isSome
  | Attachment.other => true

theorem buildAttachments_wellFormed (wc : Bool) :
    ∀ atts : List Attachment, (∀ a ∈ atts, wellFormedAttachment a = true) →
      buildAttachments wc atts = some (atts.filterMap (toFileAttachment wc)) := by
  intro atts
  induction atts with
  | nil => intro _; rfl
  | cons a rest ih =>
      intro h
      have ha := h a (List.mem_cons_self a rest)
      have hrest := ih fun x hx => h x (List.mem_cons_of_mem a hx)
      cases a with
      | file name ct cb =>
          simp only [wellFormedAttachment, Bool.and_eq_true] at ha
          obtain ⟨n, hn⟩ := Option.isSome_iff_exists.mp ha.1
          obtain ⟨c, hc⟩ := Option.isSome_iff_exists.mp ha.2
          subst hn
          subst hc
          simp [buildAttachments, toFileAttachment, List.filterMap_cons, hrest]
      | other =>
          simp [buildAttachments, toFileAttachment, List.filterMap_cons, hrest]

/-- Claim C9: on a successful attachments response whose file
attachments have their metadata present, `GetAttachments` returns
exactly the file-attachment variants, projected in their original
order, skipping every other kind without an error. -/
theorem c9_attachments_filter (atts : List Attachment) (wc : Bool)
    (h : ∀ a ∈ atts, wellFormedAttachment a = true) :
    GetAttachments (Except.ok atts) wc =
      GoResult.ret (atts.filterMap (toFileAttachment wc), none) := by
  simp only [GetAttachments, buildAttachments_wellFormed wc atts h]

/-- Sample attachment list with two file attachments around a non-file
attachment. -/
def demoAtts : List Attachment :=
  [Attachment.file (some "a") (some "text") (some [1, 2]),
   Attachment.other,
   Attachment.file (some "b") (some "pdf") none]

theorem c9_witness :
    GetAttachments (Except.ok demoAtts) true =
      GoResult.ret ([⟨"a", "text", some [1, 2]⟩, ⟨"b", "pdf", none⟩], none) := by
  have h := c9_attachments_filter demoAtts true (by decide)
  rw [h]
  rfl

theorem filterMap_toFileAttachment_false (atts : List Attachment) :
    atts.filterMap (toFileAttachment false) =
      (atts.filterMap (toFileAttachment true)).map
        (fun fa => { Name := fa.Name, ContentType := fa.ContentType, Content := none }) := by
  induction atts with
  | nil => rfl
  | cons a rest ih =>
      cases a with
      | file name ct cb =>
          rcases name with _ | n
          · simpa [toFileAttachment, List.filterMap_cons] using ih
          · rcases ct with _ | c
            · simpa [toFileAttachment, List.filterMap_cons] using ih
            · simp [toFileAttachment, List.filterMap_cons, ih]
      | other => simpa [toFileAttachment, List.filterMap_cons] using ih

/-- Claim C10: with `withContent = false` every returned attachment has
a nil `Content` while `Name` and `ContentType` are the ones copied from
the source attachments — the result is the `withContent = true` result
with its contents erased. -/
theorem c10_withContent_false_frame (atts : List Attachment)
    (h : ∀ a ∈ atts, wellFormedAttachment a = true) :
    GetAttachments (Except.ok atts) false =
      GoResult.ret (atts.filterMap (toFileAttachment false), none) ∧
    atts.filterMap (toFileAttachment false) =
      (atts.filterMap (toFileAttachment true)).map
        (fun fa => { Name := fa.Name, ContentType := fa.ContentType, Content := none }) ∧
    ∀ fa ∈ atts.filterMap (toFileAttachment false), fa.Content = none := by
  refine ⟨?_, filterMap_toFileAttachment_false atts, ?_⟩
  · simp only [GetAttachments, buildAttachments_wellFormed false atts h]
  · intro fa hfa
    rw [List.mem_filterMap] at hfa
    obtain ⟨a, _, hfa⟩ := hfa
    cases a with
    | other => simp [toFileAttachment] at hfa
    | file name ct cb =>
        rcases name with _ | n
        · simp [toFileAttachment] at hfa
        · rcases ct with _ | c
          · simp [toFileAttachment] at hfa
          · simp only [toFileAttachment, Option.some.injEq] at hfa
            rw [← hfa]
            rfl

theorem c10_witness :
    GetAttachments (Except.ok demoAtts) false =
      GoResult.ret ([⟨"a", "text", none⟩, ⟨"b", "pdf", none⟩], none) := by
  have h := c10_withContent_false_frame demoAtts (by decide)
  rw [h.1]
  rfl

end O365
